import Mathlib

/-!
Verification of the torrentfs peer protocol and demand-scheduling engine
(vendor/github.com/CortexFoundation/torrentfs/fs.go) against its
natural-language specification.  The Go code is shallowly embedded:
pure decision logic becomes Lean functions, stateful code becomes explicit
state passing, external collaborators (TorrentManager, ChainDB) become
oracles passed as arguments, and Go channel or once semantics become
explicit fields of the modelled state.
-/

namespace TorrentFS

/-- Modelled from the spec: common.IsHexAddress (package common of this
repository, not present under src/) decides the "fixed-width hex address
shape": an optional 0x or 0X prefix followed by exactly 40 hexadecimal
characters. -/
def isHexChar (c : Char) : Bool :=
  (48 ≤ c.toNat && c.toNat ≤ 57) || (97 ≤ c.toNat && c.toNat ≤ 102) ||
    (65 ≤ c.toNat && c.toNat ≤ 70)

/-- Modelled from the spec: the syntactic validity test applied to hashes
by broadcast and by the Query branch of the message loop.  String
operations are carried out on the underlying character list so that the
definition evaluates inside the kernel. -/
def isHexAddress (s : String) : Bool :=
  let cs := s.data
  let body :=
    if cs.take 2 = ['0', 'x'] || cs.take 2 = ['0', 'X'] then cs.drop 2 else cs
  body.length == 40 && body.all isHexChar

/-- Modelled from the spec: the Dedup Tunnel (the ttlmap collaborator) is a
map from content hash to a value together with an absolute expiry instant;
entries expire after a fixed TTL of 60 seconds.  Time is modelled as a Nat
of seconds passed explicitly to each operation. -/
structure Tunnel where
  entries : List (String × Nat × Nat)
deriving Repr, DecidableEq

/-- Modelled from the spec: ttlmap Get returns the value only while the
entry is unexpired (strictly before its expiry instant). -/
def Tunnel.get (t : Tunnel) (now : Nat) (k : String) : Option Nat :=
  match t.entries.find? (fun e => e.1 == k && now < e.2.2) with
  | some e => some e.2.1
  | none => none

/-- Modelled from the spec: ttlmap Set inserts or replaces the entry for a
key with the given value and a fresh 60-second TTL. -/
def Tunnel.set (t : Tunnel) (now : Nat) (k : String) (v : Nat) : Tunnel :=
  ⟨(k, v, now + 60) :: t.entries.filter (fun e => e.1 ≠ k)⟩

/-- Modelled from the spec: ttlmap Drain removes every entry, leaving the
tunnel with zero entries. -/
def Tunnel.drain (_t : Tunnel) : Tunnel := ⟨[]⟩

/-- Number of unexpired entries visible at a given instant. -/
def Tunnel.len (t : Tunnel) : Nat := t.entries.length

/-- Embedding of TorrentFS.broadcast (fs.go lines 517-529): reject a hash
that is not a well-formed hex address; suppress when the tunnel holds an
unexpired entry whose value is at least rawSize; otherwise insert or
replace the entry with rawSize and a 60-second TTL and report success.
Returns the boolean result together with the updated tunnel. -/
def broadcast (t : Tunnel) (now : Nat) (ih : String) (rawSize : Nat) :
    Bool × Tunnel :=
  if !(isHexAddress ih) then
    (false, t)
  else
    match t.get now ih with
    | some v =>
      if v ≥ rawSize then (false, t)
      else (true, t.set now ih rawSize)
    | none => (true, t.set now ih rawSize)

/-- Embedding of types.BitsFlow: a need-event carrying the content hash
(InfoHash) and the requested size hint (Request). -/
structure BitsFlow where
  infoHash : String
  request : Nat
deriving Repr, DecidableEq

/-- Capacity of the ttlchan deferral channel, from
make(chan any, 1024) in fs.go (the PendingQueue bound). -/
def ttlchanCap : Nat := 1024

/-- Outcome of the listen loop on one incoming need-event: run the fetch
path synchronously, append the event to the ttlchan deferral queue, or
block on the channel send because the queue is full (Go channel send
semantics: a send on a full buffered channel blocks the sender). -/
inductive ListenAction where
  | fetchNow
  | deferEvent
  | blockSender
deriving Repr, DecidableEq

/-- Embedding of the callback case of TorrentFS.listen (fs.go lines
280-287): with good standing for the params.IsGood predicate (an external
policy table, kept abstract) and queueLen the current length of ttlchan,
decide what happens to the incoming event. -/
def listenStep (good : String → Bool) (queueLen : Nat) (m : BitsFlow) :
    ListenAction :=
  if m.request > 0 || good m.infoHash then .fetchNow
  else if queueLen < ttlchanCap then .deferEvent
  else .blockSender

/-- Modelled from the spec: the three application-level message codes
(params.StatusCode) of the wire protocol; the params package is not under
src/, so the codes are three distinct naturals. -/
def statusCode : Nat := 0

/-- Modelled from the spec: params.QueryCode. -/
def queryCode : Nat := 1

/-- Modelled from the spec: params.MsgCode. -/
def msgCode : Nat := 2

/-- Modelled from the spec: params.ProtocolVersion is not under src/; the
spec lists Query (protocol at least v4) and Msg (protocol above v4) as
live message codes, so the modelled compiled version constant is 5. -/
def protocolVersion : Nat := 5

/-- Embedding of PeerInfo: the peer state snapshot decoded from a Status
message.  Its fields play no role in the verified properties, so it keeps
only the listening address as a representative payload. -/
structure PeerInfo where
  listen : String
deriving Repr, DecidableEq

/-- Embedding of Query: the payload of a Query message. -/
structure Query where
  hash : String
  size : Nat
deriving Repr, DecidableEq

/-- Embedding of MsgInfo: the payload of a Msg message. -/
structure MsgInfo where
  desc : String
deriving Repr, DecidableEq

/-- Embedding of a wire packet as observed by runMessageLoop: the code and
size from the transport header, plus the result of attempting to decode
the payload at each of the three expected shapes (none models a decode
failure, matching packet.Decode returning an error). -/
structure Packet where
  code : Nat
  size : Nat
  statusDecode : Option PeerInfo
  queryDecode : Option Query
  msgDecode : Option MsgInfo
deriving Repr, DecidableEq

/-- Embedding of the peer session record: the negotiated version is kept to
express that message handling never consults it. -/
structure Peer where
  id : String
  version : Nat
deriving Repr, DecidableEq

/-- Result of handling one packet: terminate the session with an error, or
keep the loop running, optionally replacing the cached peerInfo and
optionally raising a need-event (wakeup) for a hash. -/
inductive StepResult where
  | terminate (err : String)
  | keepGoing (newInfo : Option PeerInfo) (event : Option String)
deriving Repr, DecidableEq

/-- Embedding of the body of TorrentFS.runMessageLoop (fs.go lines
348-405) for a single packet: the size cap, the switch on the message
code, the protocol-version gates on Query and Msg, decode-failure
handling, and hash validation; v is the params.ProtocolVersion constant
and maxSize the configured maximum message size.  The peer p is in scope
as in the source but its negotiated version is never consulted. -/
def handleMessage (v maxSize : Nat) (_p : Peer) (pkt : Packet) :
    StepResult :=
  if pkt.size > maxSize then .terminate "oversized message received"
  else if pkt.code = statusCode then
    match pkt.statusDecode with
    | none => .terminate "invalid peer state"
    | some info => .keepGoing (some info) none
  else if pkt.code = queryCode then
    if v ≥ 4 then
      match pkt.queryDecode with
      | none => .terminate "invalid msg"
      | some q =>
        if !(isHexAddress q.hash) then .terminate "invalid address"
        else .keepGoing none (some q.hash)
    else .keepGoing none none
  else if pkt.code = msgCode then
    if v > 4 then
      match pkt.msgDecode with
      | none => .terminate "invalid msg"
      | some _ => .keepGoing none none
    else .keepGoing none none
  else .terminate "invalid code"

/-- Aggregate outcome of running the message loop over a finite prefix of
the peer's packet stream: how many packets were taken off the wire, the
wakeup events raised in order, and the error that ended the loop (an
exhausted stream models ReadMsg failing, which also returns). -/
structure LoopOutcome where
  processed : Nat
  events : List String
  err : String
deriving Repr, DecidableEq

/-- Embedding of the loop structure of TorrentFS.runMessageLoop over a
list of packets: each packet is handled in arrival order and the loop
stops at the first terminating packet, never touching the rest. -/
def runMessageLoop (v maxSize : Nat) (p : Peer) :
    List Packet → LoopOutcome
  | [] => ⟨0, [], "read error"⟩
  | pkt :: rest =>
    match handleMessage v maxSize p pkt with
    | .terminate e => ⟨1, [], e⟩
    | .keepGoing _ ev =>
      let r := runMessageLoop v maxSize p rest
      ⟨r.processed + 1,
       (match ev with | some h => h :: r.events | none => r.events),
       r.err⟩

/-- Trace of one TorrentFS.wakeup invocation (fs.go lines 547-561):
enqueued records a need-event sent to the scheduler callback channel
(none: wakeup never sends one), searched records a direct Search call on
the swarm collaborator with its hash and size arguments.  The progress
oracle is ChainDB.GetTorrentProgress. -/
structure WakeupTrace where
  enqueued : Option (String × Nat)
  searched : Option (String × Nat)
deriving Repr, DecidableEq

/-- Embedding of TorrentFS.wakeup: look the hash up in the progress
ledger; on success call the swarm collaborator Search directly with the
ledger-resolved size; on a ledger error do nothing.  No event is sent to
the scheduler callback channel on either path. -/
def wakeup (progress : String → Except String Nat) (ih : String) :
    WakeupTrace :=
  match progress ih with
  | .ok p => ⟨none, some (ih, p)⟩
  | .error _ => ⟨none, none⟩

/-- Lowercasing of a single character, as strings.ToLower acts on the
ASCII hash strings involved. -/
def charToLower (c : Char) : Char :=
  if 65 ≤ c.toNat && c.toNat ≤ 90 then Char.ofNat (c.toNat + 32) else c

/-- Embedding of strings.ToLower restricted to the character list. -/
def strToLower (s : String) : String :=
  ⟨s.data.map charToLower⟩

/-- Oracle view of the swarm collaborator backend.TorrentManager: the
operations consumed by the verified functions, kept abstract since the
backend is an external collaborator.  Search returns an error or unit;
the extra return values of Exists are discarded by the caller. -/
structure TorrentManager where
  Exists : String → Nat → Bool
  Search : String → Nat → Except String Unit
  IsPending : String → Bool
  IsDownloading : String → Bool
  IsSeeding : String → Bool

/-- Oracle view of the ledger collaborator backend.ChainDB:
SetTorrentProgress returns the resolved progress size or an error (the
first return value is discarded by download), GetTorrentProgress returns
the tracked size or an error. -/
structure ChainDB where
  SetTorrentProgress : String → Nat → Except String Nat
  GetTorrentProgress : String → Except String Nat

/-- Trace of one TorrentFS.download invocation: the propagated error if
any, the Search call made on the collaborator with its arguments, and the
argument pair of the asynchronous broadcast attempt (none when no
broadcast goroutine was spawned). -/
structure DownloadResult where
  err : Option String
  searched : Option (String × Nat)
  broadcastArg : Option (String × Nat)
deriving Repr, DecidableEq

/-- Embedding of TorrentFS.download (fs.go lines 788-810): lowercase the
hash; record the request in the ledger obtaining the resolved size p, an
error here propagating at once; when the collaborator does not report the
artifact as existing at the originally requested size, spawn the
fire-and-forget broadcast of (hash, p); finally Search the collaborator at
size p, its error propagating.  The broadcast goroutine result is never
part of the returned error. -/
def download (db : ChainDB) (tm : TorrentManager) (ih : String)
    (request : Nat) : DownloadResult :=
  let ihl := strToLower ih
  match db.SetTorrentProgress ihl request with
  | .error e => ⟨some e, none, none⟩
  | .ok p =>
    let b := if tm.Exists ihl request then none else some (ihl, p)
    match tm.Search ihl p with
    | .error e => ⟨some e, some (ihl, p), b⟩
    | .ok _ => ⟨none, some (ihl, p), b⟩

/-- Embedding of TorrentFS.Status (fs.go lines 817-831): classify an
artifact from the collaborator flags, returning the integer code of the
source (1 pending, 2 downloading, 0 seeding, 3 missing); the accompanying
error is always nil in the source and is omitted. -/
def Status (tm : TorrentManager) (ih : String) : Nat :=
  if tm.IsPending ih then 1
  else if tm.IsDownloading ih then 2
  else if tm.IsSeeding ih then 0
  else 3

/-- Errors surfaced by GetFileWithSize: oversize stands for
backend.ErrInvalidRawSize, ctxDone for ctx.Err() at the context deadline,
getFailed e for the error of the initial GetFile call returned unchanged
when no retry loop runs. -/
inductive FetchErr where
  | oversize
  | ctxDone
  | getFailed (e : String)
deriving Repr, DecidableEq

/-- Retry loop of GetFileWithSize: getFile k is the outcome of the k-th
GetFile call on the swarm collaborator, fuel the number of timer ticks the
context allows before its deadline fires.  Each tick retries GetFile; a
success longer than rawSize yields the oversize error, a success within
bounds yields the bytes, a failure burns one tick. -/
def pollLoop (getFile : Nat → Except String (List Nat)) (rawSize : Nat) :
    Nat → Nat → Except FetchErr (List Nat)
  | 0, _ => .error .ctxDone
  | fuel + 1, k =>
    match getFile k with
    | .ok ret =>
      if ret.length > rawSize then .error .oversize else .ok ret
    | .error _ => pollLoop getFile rawSize fuel (k + 1)

/-- Embedding of TorrentFS.GetFileWithSize (fs.go lines 563-609): call
GetFile once; on success return the bytes unless they exceed rawSize, in
which case return the oversize error and no bytes; on failure spawn the
background wakeup (a fire-and-forget side effect on collaborator state,
not part of the returned value) and, when the hash satisfies the IsGood
predicate, enter the poll loop, otherwise return the GetFile error.  The
worm bookkeeping of the direct path is likewise a side effect without
influence on the returned value. -/
def GetFileWithSize (getFile : Nat → Except String (List Nat))
    (good : Bool) (fuel rawSize : Nat) : Except FetchErr (List Nat) :=
  match getFile 0 with
  | .ok ret =>
    if ret.length > rawSize then .error .oversize else .ok ret
  | .error e =>
    if good then pollLoop getFile rawSize fuel 1
    else .error (.getFailed e)

/-- Shutdown-relevant fragment of the TorrentFS state: whether the
sync.Once already fired, whether the closeAll channel is closed, how many
times close(closeAll) was executed (a second close of a Go channel
panics), whether the handler, db and monitor were released, whether the
wg-tracked listen loop is still running, the number of per-peer message
loops currently running, and the Dedup Tunnel.  The listen loop is the
single long-lived goroutine registered with the WaitGroup (fs.go line
248); the peer message loops are started by the p2p server through
HandlePeer (fs.go lines 321-346) with no wg.Add, and runMessageLoop
(fs.go lines 348-405) blocks on rw.ReadMsg with no select on closeAll,
exiting only when a read fails or a packet terminates the session. -/
structure FsState where
  onceUsed : Bool
  closed : Bool
  closeCount : Nat
  handlerClosed : Bool
  dbClosed : Bool
  monitorStopped : Bool
  listenRunning : Bool
  peerLoops : Nat
  tunnel : Tunnel
deriving Repr, DecidableEq

/-- Embedding of the shutdown arm of the listen select (fs.go lines
297-299): receiving on the closed closeAll channel fires the case and the
loop returns; while the channel is open this arm never fires and the loop
keeps running. -/
def listenSelectClose (closed running : Bool) : Bool :=
  if closed then false else running

/-- Embedding of TorrentFS.Stop (fs.go lines 488-515): inside once.Do,
release handler, db and monitor and close the closeAll channel; then
wg.Wait joins the goroutines registered with the WaitGroup — the one
long-lived such goroutine is the listen loop, whose exit on the closed
channel is the listenSelectClose arm (the remaining wg-tracked goroutines
are the short-lived straight-line broadcast and wakeup calls).  The
per-peer message loops are not registered with the WaitGroup and never
select on closeAll, so Stop leaves their count untouched.  Finally the
tunnel is drained.  On a repeated invocation the once body is skipped
entirely. -/
def Stop (s : FsState) : FsState :=
  let s1 :=
    if s.onceUsed then s
    else
      { s with
        onceUsed := true
        closed := true
        handlerClosed := true
        dbClosed := true
        monitorStopped := true
        closeCount := s.closeCount + 1 }
  let s2 :=
    { s1 with listenRunning := listenSelectClose s1.closed s1.listenRunning }
  { s2 with tunnel := s2.tunnel.drain }

/-- Concrete well-formed hash used to instantiate theorems. -/
def goodHash : String := "1234567890abcdef1234567890abcdef12345678"

/-- Concrete ledger oracle whose progress update always fails. -/
def dbErr : ChainDB :=
  ⟨fun _ _ => .error "db", fun _ => .error "db"⟩

/-- Concrete ledger oracle resolving every request to size 10. -/
def dbTen : ChainDB :=
  ⟨fun _ _ => .ok 10, fun _ => .ok 10⟩

/-- Concrete swarm oracle reporting nothing present and succeeding on
every search. -/
def tmZero : TorrentManager :=
  ⟨fun _ _ => false, fun _ _ => .ok (), fun _ => false, fun _ => false,
   fun _ => false⟩

/-- Concrete swarm oracle reporting an artifact as existing exactly at
sizes of at least 10, searches succeeding. -/
def tmGE10 : TorrentManager :=
  ⟨fun _ n => decide (10 ≤ n), fun _ _ => .ok (), fun _ => false,
   fun _ => false, fun _ => false⟩

/-- Concrete progress oracle resolving every hash to size 7. -/
def progressOk7 : String → Except String Nat := fun _ => .ok 7

/-- Concrete GetFile oracle: the first two calls fail, every later call
returns three bytes. -/
def g1 : Nat → Except String (List Nat) :=
  fun k => if k < 2 then .error "nf" else .ok [0, 1, 2]

/-- Unfolding lemma: broadcast with an invalid hash is a no-op. -/
lemma broadcast_of_not_hex {ih : String} (t : Tunnel) (now s : Nat)
    (h : isHexAddress ih = false) : broadcast t now ih s = (false, t) := by
  simp [broadcast, h]

/-- Unfolding lemma: broadcast is suppressed by an unexpired entry at
least as large. -/
lemma broadcast_of_ge {ih : String} {t : Tunnel} {now v : Nat} (s : Nat)
    (hv : isHexAddress ih = true) (hget : t.get now ih = some v)
    (hge : s ≤ v) : broadcast t now ih s = (false, t) := by
  simp [broadcast, hv, hget, hge]

/-- Unfolding lemma: broadcast replaces a strictly smaller unexpired
entry and succeeds. -/
lemma broadcast_of_lt {ih : String} {t : Tunnel} {now v : Nat} (s : Nat)
    (hv : isHexAddress ih = true) (hget : t.get now ih = some v)
    (hlt : v < s) : broadcast t now ih s = (true, t.set now ih s) := by
  simp [broadcast, hv, hget, Nat.not_le.mpr hlt]

/-- Unfolding lemma: broadcast inserts when no unexpired entry exists. -/
lemma broadcast_of_none {ih : String} {t : Tunnel} {now : Nat} (s : Nat)
    (hv : isHexAddress ih = true) (hget : t.get now ih = none) :
    broadcast t now ih s = (true, t.set now ih s) := by
  simp [broadcast, hv, hget]

/-- Reading a freshly set key back within its 60-second TTL yields the
new value. -/
lemma Tunnel.get_set_self (t : Tunnel) (now now2 : Nat) (k : String)
    (v : Nat) (h : now2 < now + 60) : (t.set now k v).get now2 k = some v := by
  unfold Tunnel.set Tunnel.get
  rw [List.find?_cons_of_pos]
  simp [h]

end TorrentFS

namespace TorrentFS

/-- C2: for every call broadcast(h, s), an invalid hash returns false with
the tunnel unchanged; an unexpired entry with value at least s returns
false with the tunnel unchanged; otherwise the entry for h is inserted or
replaced with value s and a 60-second TTL (expiry now + 60) and the call
returns true. -/
theorem broadcast_dedup_spec (t : Tunnel) (now : Nat) (ih : String)
    (s : Nat) :
    (isHexAddress ih = false → broadcast t now ih s = (false, t)) ∧
    (isHexAddress ih = true → ∀ v, t.get now ih = some v → s ≤ v →
      broadcast t now ih s = (false, t)) ∧
    (isHexAddress ih = true → ∀ v, t.get now ih = some v → v < s →
      broadcast t now ih s = (true, t.set now ih s)) ∧
    (isHexAddress ih = true → t.get now ih = none →
      broadcast t now ih s = (true, t.set now ih s)) :=
  ⟨fun h => broadcast_of_not_hex t now s h,
   fun hv _v hget hge => broadcast_of_ge s hv hget hge,
   fun hv _v hget hlt => broadcast_of_lt s hv hget hlt,
   fun hv hget => broadcast_of_none s hv hget⟩

/-- Witness for C2 at concrete inputs: a fresh tunnel broadcasts a valid
hash, and an invalid hash is rejected unchanged. -/
theorem broadcast_dedup_spec_witness :
    broadcast ⟨[]⟩ 0 goodHash 5 = (true, Tunnel.set ⟨[]⟩ 0 goodHash 5) ∧
    broadcast ⟨[]⟩ 0 "zzz" 5 = (false, ⟨[]⟩) :=
  ⟨(broadcast_dedup_spec ⟨[]⟩ 0 goodHash 5).2.2.2 (by decide) (by decide),
   (broadcast_dedup_spec ⟨[]⟩ 0 "zzz" 5).1 (by decide)⟩

/-- C3: within one 60-second TTL window, broadcasting a valid hash twice
from a state with no unexpired entry succeeds the first time; a second
size at most the first is suppressed (one effective broadcast), a second
size strictly larger succeeds again (two effective broadcasts). -/
theorem broadcast_ttl_window (t : Tunnel) (now1 now2 s1 s2 : Nat)
    (ih : String) (hv : isHexAddress ih = true)
    (h0 : t.get now1 ih = none) (hw : now2 < now1 + 60) :
    (broadcast t now1 ih s1).1 = true ∧
    (s2 ≤ s1 → (broadcast (broadcast t now1 ih s1).2 now2 ih s2).1 = false) ∧
    (s1 < s2 → (broadcast (broadcast t now1 ih s1).2 now2 ih s2).1 = true) := by
  have h1 : broadcast t now1 ih s1 = (true, t.set now1 ih s1) :=
    broadcast_of_none s1 hv h0
  have hget : (t.set now1 ih s1).get now2 ih = some s1 :=
    Tunnel.get_set_self t now1 now2 ih s1 hw
  refine ⟨by rw [h1], ?_, ?_⟩
  · intro hle
    rw [h1, broadcast_of_ge s2 hv hget hle]
  · intro hlt
    rw [h1, broadcast_of_lt s2 hv hget hlt]

/-- Witness for C3 at concrete inputs: sizes 5 then 3 give one effective
broadcast, sizes 5 then 7 give two. -/
theorem broadcast_ttl_window_witness :
    (broadcast ⟨[]⟩ 0 goodHash 5).1 = true ∧
    (broadcast (broadcast ⟨[]⟩ 0 goodHash 5).2 10 goodHash 3).1 = false ∧
    (broadcast (broadcast ⟨[]⟩ 0 goodHash 5).2 10 goodHash 7).1 = true :=
  ⟨(broadcast_ttl_window ⟨[]⟩ 0 10 5 3 goodHash (by decide) (by decide)
      (by decide)).1,
   (broadcast_ttl_window ⟨[]⟩ 0 10 5 3 goodHash (by decide) (by decide)
      (by decide)).2.1 (by decide),
   (broadcast_ttl_window ⟨[]⟩ 0 10 5 7 goodHash (by decide) (by decide)
      (by decide)).2.2 (by decide)⟩

/-- C1 counterexample: the claim asserts that a deferred need-event
arriving while the queue is at capacity is dropped rather than blocking
the scheduler loop; in the code the deferral is a plain send on the
buffered ttlchan, which blocks when the buffer is full.  At a concrete
full-queue state with a non-good hash and size zero, the listen step
blocks the sender instead of dropping the event. -/
theorem listen_defer_counterexample :
    listenStep (fun _ => false) ttlchanCap ⟨goodHash, 0⟩ =
      ListenAction.blockSender ∧
    listenStep (fun _ => false) ttlchanCap ⟨goodHash, 0⟩ ≠
      ListenAction.deferEvent := by
  constructor
  · rfl
  · decide

/-- C1 amended: the fetch path runs immediately if and only if the
good/priority predicate holds or the requested size is nonzero; otherwise
the event is deferred into the bounded queue when it has room, and when
the queue is at capacity the send blocks the scheduler loop (backpressure)
rather than dropping the event. -/
theorem listen_step_spec (good : String → Bool) (q : Nat) (m : BitsFlow) :
    (listenStep good q m = ListenAction.fetchNow ↔
      (0 < m.request ∨ good m.infoHash = true)) ∧
    (listenStep good q m = ListenAction.deferEvent ↔
      (¬(0 < m.request ∨ good m.infoHash = true) ∧ q < ttlchanCap)) ∧
    (listenStep good q m = ListenAction.blockSender ↔
      (¬(0 < m.request ∨ good m.infoHash = true) ∧ ttlchanCap ≤ q)) := by
  unfold listenStep
  by_cases h1 : 0 < m.request
  · simp [h1]
  · by_cases h2 : good m.infoHash = true
    · simp [h1, h2]
    · by_cases h3 : q < ttlchanCap <;> simp [h1, h2, h3]
      all_goals omega

/-- C6: the Status query returns exactly one of the four state codes,
computed from the collaborator flags in the order Pending, Downloading,
Seeding, Missing; Pending wins over Downloading and Seeding whenever
several flags hold simultaneously, and Downloading wins over Seeding. -/
theorem status_precedence (tm : TorrentManager) (ih : String) :
    (Status tm ih = 1 ∨ Status tm ih = 2 ∨ Status tm ih = 0 ∨
      Status tm ih = 3) ∧
    (Status tm ih = 1 ↔ tm.IsPending ih = true) ∧
    (Status tm ih = 2 ↔
      (tm.IsPending ih = false ∧ tm.IsDownloading ih = true)) ∧
    (Status tm ih = 0 ↔
      (tm.IsPending ih = false ∧ tm.IsDownloading ih = false ∧
        tm.IsSeeding ih = true)) ∧
    (Status tm ih = 3 ↔
      (tm.IsPending ih = false ∧ tm.IsDownloading ih = false ∧
        tm.IsSeeding ih = false)) := by
  rcases hp : tm.IsPending ih with _ | _ <;>
    rcases hd : tm.IsDownloading ih with _ | _ <;>
      rcases hs : tm.IsSeeding ih with _ | _ <;>
        simp [Status, hp, hd, hs]

/-- C4: with the modelled compiled protocol version (both code gates
live), one message loop step terminates the session exactly for an
oversized message, a Status, Query or Msg payload that fails to decode, a
Query carrying a malformed hex address, or a code outside the three known
codes; and whenever a packet terminates the step, the loop over the whole
stream returns at once, processing no later packet and raising no event;
every non-terminating packet lets the loop continue. -/
theorem message_loop_termination (maxSize : Nat) (p : Peer) (pkt : Packet)
    (rest : List Packet) :
    ((∃ e, handleMessage protocolVersion maxSize p pkt =
        StepResult.terminate e) ↔
      (maxSize < pkt.size ∨
       (pkt.code = statusCode ∧ pkt.statusDecode = none) ∨
       (pkt.code = queryCode ∧ pkt.queryDecode = none) ∨
       (pkt.code = queryCode ∧ ∃ q, pkt.queryDecode = some q ∧
         isHexAddress q.hash = false) ∨
       (pkt.code = msgCode ∧ pkt.msgDecode = none) ∨
       (pkt.code ≠ statusCode ∧ pkt.code ≠ queryCode ∧
         pkt.code ≠ msgCode))) ∧
    (∀ e, handleMessage protocolVersion maxSize p pkt =
        StepResult.terminate e →
      runMessageLoop protocolVersion maxSize p (pkt :: rest) =
        ⟨1, [], e⟩) := by
  constructor
  · unfold handleMessage protocolVersion
    by_cases h0 : pkt.size > maxSize
    · simp [h0]
    · by_cases hc1 : pkt.code = statusCode
      · cases hsd : pkt.statusDecode <;>
          simp [h0, hc1, hsd, statusCode, queryCode, msgCode]
      · by_cases hc2 : pkt.code = queryCode
        · cases hqd : pkt.queryDecode with
          | none => simp [h0, hc1, hc2, hqd, statusCode, queryCode]
          | some q =>
            cases hqh : isHexAddress q.hash <;>
              simp [h0, hc1, hc2, hqd, hqh, statusCode, queryCode, msgCode]
        · by_cases hc3 : pkt.code = msgCode
          · cases hmd : pkt.msgDecode <;>
              simp [h0, hc1, hc2, hc3, hmd, statusCode, queryCode, msgCode]
          · simp [h0, hc1, hc2, hc3]
  · intro e h
    simp [runMessageLoop, h]

/-- Witness for C4 at a concrete input: an oversized packet terminates
the loop on the spot and the following packet is never processed. -/
theorem message_loop_termination_witness :
    runMessageLoop protocolVersion 100 ⟨"p", 4⟩
      [⟨statusCode, 200, some ⟨"l"⟩, none, none⟩,
       ⟨statusCode, 10, some ⟨"l"⟩, none, none⟩] =
      ⟨1, [], "oversized message received"⟩ :=
  (message_loop_termination 100 ⟨"p", 4⟩
      ⟨statusCode, 200, some ⟨"l"⟩, none, none⟩
      [⟨statusCode, 10, some ⟨"l"⟩, none, none⟩]).2
    "oversized message received" (by decide)

/-- C10: when the protocol-version gate is not met, a size-respecting
Query (version below 4) or Msg (version at most 4) message is silently
skipped: the result is keepGoing with no peer-state change and no event,
whatever the decode fields hold, so the payload is never consulted and the
message is not treated as an unknown code; and the handling of any packet
is independent of the negotiated version stored with the peer, depending
only on the compiled version constant. -/
theorem version_gate_skip (v maxSize : Nat) (p : Peer) (pkt : Packet) :
    (v < 4 → pkt.code = queryCode → pkt.size ≤ maxSize →
      handleMessage v maxSize p pkt = StepResult.keepGoing none none) ∧
    (v ≤ 4 → pkt.code = msgCode → pkt.size ≤ maxSize →
      handleMessage v maxSize p pkt = StepResult.keepGoing none none) ∧
    (∀ q : Peer, handleMessage v maxSize p pkt =
      handleMessage v maxSize q pkt) := by
  refine ⟨?_, ?_, fun q => rfl⟩
  · intro hv hc hsz
    unfold handleMessage
    simp [Nat.not_lt.mpr hsz, hc, statusCode, queryCode, Nat.not_le.mpr hv]
  · intro hv hc hsz
    have hv4 : ¬ 4 < v := by omega
    unfold handleMessage
    simp [Nat.not_lt.mpr hsz, hc, statusCode, queryCode, msgCode, hv4]

/-- Witness for C10 at concrete inputs: a version-3 node skips a Query
whose payload would not even decode, and a version-4 node skips a Msg
likewise, both without terminating. -/
theorem version_gate_skip_witness :
    handleMessage 3 100 ⟨"p", 4⟩ ⟨queryCode, 10, none, none, none⟩ =
      StepResult.keepGoing none none ∧
    handleMessage 4 100 ⟨"p", 4⟩ ⟨msgCode, 10, none, none, none⟩ =
      StepResult.keepGoing none none :=
  ⟨(version_gate_skip 3 100 ⟨"p", 4⟩ ⟨queryCode, 10, none, none, none⟩).1
      (by decide) rfl (by decide),
   (version_gate_skip 4 100 ⟨"p", 4⟩ ⟨msgCode, 10, none, none, none⟩).2.1
      (by decide) rfl (by decide)⟩

/-- Helper: a successful poll loop never returns more bytes than the
declared maximum. -/
lemma pollLoop_ok_le (getFile : Nat → Except String (List Nat))
    (rawSize : Nat) :
    ∀ fuel k ret, pollLoop getFile rawSize fuel k = .ok ret →
      ret.length ≤ rawSize := by
  intro fuel
  induction fuel with
  | zero => intro k ret h; simp [pollLoop] at h
  | succ n ihn =>
    intro k ret h
    unfold pollLoop at h
    cases hg : getFile k with
    | ok r0 =>
      rw [hg] at h
      by_cases hl : r0.length > rawSize
      · simp [hl] at h
      · simp [hl] at h
        subst h
        omega
    | error e =>
      rw [hg] at h
      exact ihn (k + 1) ret h

/-- Helper: when the first success of the poll loop is oversized, the
loop returns the oversize error. -/
lemma pollLoop_oversize (getFile : Nat → Except String (List Nat))
    (rawSize : Nat) :
    ∀ fuel j k ret, j < fuel →
      (∀ i, i < j → ∃ er, getFile (k + i) = .error er) →
      getFile (k + j) = .ok ret → rawSize < ret.length →
      pollLoop getFile rawSize fuel k = .error .oversize := by
  intro fuel
  induction fuel with
  | zero => intro j k ret hj _ _ _; omega
  | succ n ihn =>
    intro j k ret hj herr hok hlen
    unfold pollLoop
    cases j with
    | zero =>
      rw [Nat.add_zero] at hok
      rw [hok]
      simp [hlen]
    | succ j0 =>
      obtain ⟨er, her⟩ := herr 0 (Nat.succ_pos j0)
      rw [Nat.add_zero] at her
      rw [her]
      have hshift : ∀ i, i < j0 → ∃ er2, getFile (k + 1 + i) = .error er2 := by
        intro i hi
        obtain ⟨er2, h2⟩ := herr (i + 1) (by omega)
        refine ⟨er2, ?_⟩
        have : k + 1 + i = k + (i + 1) := by omega
        rw [this]
        exact h2
      have hok2 : getFile (k + 1 + j0) = .ok ret := by
        have : k + 1 + j0 = k + (j0 + 1) := by omega
        rw [this]
        exact hok
      exact ihn j0 (k + 1) ret (by omega) hshift hok2 hlen

end TorrentFS

namespace TorrentFS

/-- C7: GetFileWithSize never returns a byte slice longer than the
declared maximum; a completed direct fetch longer than rawSize yields the
oversize error and no bytes, and so does a completed fetch on the
retry/poll path. -/
theorem oversize_guard (getFile : Nat → Except String (List Nat))
    (good : Bool) (fuel rawSize : Nat) :
    (∀ ret, GetFileWithSize getFile good fuel rawSize = .ok ret →
      ret.length ≤ rawSize) ∧
    (∀ ret, getFile 0 = .ok ret → rawSize < ret.length →
      GetFileWithSize getFile good fuel rawSize = .error .oversize) ∧
    (∀ e j ret, getFile 0 = .error e → good = true → j < fuel →
      (∀ i, i < j → ∃ er, getFile (1 + i) = .error er) →
      getFile (1 + j) = .ok ret → rawSize < ret.length →
      GetFileWithSize getFile good fuel rawSize = .error .oversize) := by
  refine ⟨?_, ?_, ?_⟩
  · intro ret h
    unfold GetFileWithSize at h
    cases hg : getFile 0 with
    | ok r0 =>
      rw [hg] at h
      by_cases hl : r0.length > rawSize
      · simp [hl] at h
      · simp [hl] at h
        subst h
        omega
    | error e =>
      rw [hg] at h
      cases hgood : good with
      | true =>
        rw [hgood] at h
        simp at h
        exact pollLoop_ok_le getFile rawSize fuel 1 ret h
      | false =>
        rw [hgood] at h
        simp at h
  · intro ret hok hlen
    unfold GetFileWithSize
    rw [hok]
    simp [hlen]
  · intro e j ret herr0 hgood hj herrs hok hlen
    unfold GetFileWithSize
    rw [herr0, hgood]
    simp only [if_true]
    exact pollLoop_oversize getFile rawSize fuel j 1 ret hj herrs hok hlen

/-- Witness for C7 at concrete inputs: the oracle fails twice and then
returns three bytes against a declared maximum of two, and the poll path
surfaces the oversize error. -/
theorem oversize_guard_witness :
    GetFileWithSize g1 true 5 2 = .error .oversize :=
  (oversize_guard g1 true 5 2).2.2 "nf" 1 [0, 1, 2] rfl rfl (by decide)
    (by
      intro i hi
      have h0 : i = 0 := by omega
      subst h0
      exact ⟨"nf", rfl⟩)
    rfl (by decide)

/-- C5 counterexample: the claim asserts the local-search call is invoked
unconditionally and is the only step of the fetch path whose error
propagates, and that the broadcast is gated on existence at the
ledger-resolved size p.  At a concrete ledger oracle whose progress
update fails, download propagates that error and never reaches the search
call; and at a ledger resolving the request to p = 10 with a collaborator
that holds the artifact at sizes of at least 10, the broadcast is still
attempted because the code gates it on existence at the originally
requested size, not at p. -/
theorem download_claim_counterexample :
    download dbErr tmZero goodHash 5 = ⟨some "db", none, none⟩ ∧
    (download dbTen tmGE10 goodHash 5).broadcastArg =
      some (strToLower goodHash, 10) ∧
    tmGE10.Exists (strToLower goodHash) 10 = true := by
  exact ⟨rfl, rfl, rfl⟩

/-- C5 amended: a ledger-update error propagates at once and skips both
the broadcast and the search; when the ledger resolves the request to p,
the search call is invoked with p and its error is the only other one to
propagate; the asynchronous broadcast of (hash, p) is attempted exactly
when the collaborator does not report the artifact as existing at the
originally requested size, and its outcome never reaches the caller. -/
theorem download_spec (db : ChainDB) (tm : TorrentManager) (ih : String)
    (request : Nat) :
    (∀ e, db.SetTorrentProgress (strToLower ih) request = .error e →
      download db tm ih request = ⟨some e, none, none⟩) ∧
    (∀ p, db.SetTorrentProgress (strToLower ih) request = .ok p →
      (download db tm ih request).searched = some (strToLower ih, p) ∧
      (download db tm ih request).broadcastArg =
        (if tm.Exists (strToLower ih) request then none
         else some (strToLower ih, p)) ∧
      (download db tm ih request).err =
        (match tm.Search (strToLower ih) p with
         | .ok _ => none
         | .error e => some e)) := by
  constructor
  · intro e h
    simp [download, h]
  · intro p h
    cases hs : tm.Search (strToLower ih) p <;> simp [download, h, hs]

/-- Witness for C5 at a concrete input: the ledger resolves the request
to 10, the collaborator holds nothing at the requested size 5, so the
search runs at 10, the broadcast is attempted with 10, and no error is
reported. -/
theorem download_spec_witness :
    (download dbTen tmGE10 goodHash 5).searched =
      some (strToLower goodHash, 10) ∧
    (download dbTen tmGE10 goodHash 5).broadcastArg =
      (if tmGE10.Exists (strToLower goodHash) 5 then none
       else some (strToLower goodHash, 10)) ∧
    (download dbTen tmGE10 goodHash 5).err =
      (match tmGE10.Search (strToLower goodHash) 10 with
       | .ok _ => none
       | .error e => some e) :=
  (download_spec dbTen tmGE10 goodHash 5).2 10 rfl

/-- C9 counterexample: the claim asserts that a remote Query with a valid
hash raises a need-event consumed by the Demand Scheduler loop rather
than being acted on outside it.  At a concrete progress oracle, the Query
branch invokes wakeup, and wakeup enqueues nothing to the scheduler
callback channel while calling Search on the swarm collaborator
directly. -/
theorem wakeup_counterexample :
    (wakeup progressOk7 goodHash).enqueued = none ∧
    (wakeup progressOk7 goodHash).searched = some (goodHash, 7) ∧
    handleMessage protocolVersion 100 ⟨"p", 4⟩
      ⟨queryCode, 10, none, some ⟨goodHash, 0⟩, none⟩ =
      StepResult.keepGoing none (some goodHash) := by
  refine ⟨rfl, rfl, by decide⟩

/-- C9 amended: a remote Query with a syntactically valid hash makes the
message loop invoke wakeup for that hash; wakeup never enqueues an event
to the scheduler callback channel, and when the progress ledger resolves
the hash it directly instructs the swarm collaborator to search at the
ledger-resolved size, doing nothing on a ledger error — the scheduler
loop is bypassed. -/
theorem wakeup_spec (progress : String → Except String Nat) (ih : String)
    (v maxSize : Nat) (p : Peer) (pkt : Packet) (q : Query) :
    ((wakeup progress ih).enqueued = none) ∧
    (∀ sz, progress ih = .ok sz →
      (wakeup progress ih).searched = some (ih, sz)) ∧
    (∀ e, progress ih = .error e →
      (wakeup progress ih).searched = none) ∧
    (4 ≤ v → pkt.size ≤ maxSize → pkt.code = queryCode →
      pkt.queryDecode = some q → isHexAddress q.hash = true →
      handleMessage v maxSize p pkt =
        StepResult.keepGoing none (some q.hash)) := by
  refine ⟨?_, ?_, ?_, ?_⟩
  · unfold wakeup
    cases h : progress ih <;> simp [h]
  · intro sz h
    simp [wakeup, h]
  · intro e h
    simp [wakeup, h]
  · intro hv hsz hc hq hhex
    unfold handleMessage
    simp [Nat.not_lt.mpr hsz, hc, statusCode, queryCode, hv, hq, hhex]

/-- Witness for C9 at concrete inputs: the ledger resolves the hash to 7
and wakeup searches directly, while a valid Query packet raises the
wakeup event in the loop. -/
theorem wakeup_spec_witness :
    (wakeup progressOk7 goodHash).searched = some (goodHash, 7) ∧
    handleMessage 5 100 ⟨"q", 4⟩
      ⟨queryCode, 10, none, some ⟨goodHash, 3⟩, none⟩ =
      StepResult.keepGoing none (some goodHash) :=
  ⟨(wakeup_spec progressOk7 goodHash 5 100 ⟨"q", 4⟩
      ⟨queryCode, 10, none, some ⟨goodHash, 3⟩, none⟩ ⟨goodHash, 3⟩).2.1
      7 rfl,
   (wakeup_spec progressOk7 goodHash 5 100 ⟨"q", 4⟩
      ⟨queryCode, 10, none, some ⟨goodHash, 3⟩, none⟩ ⟨goodHash, 3⟩).2.2.2
      (by decide) (by decide) rfl rfl (by decide)⟩

/-- C8 counterexample: the claim asserts that after any completed Stop
invocation all long-lived loops have observed the shutdown signal and
exited; the per-peer message loops are not registered with the WaitGroup
that Stop waits on and never select on closeAll, so a completed Stop on a
fresh state with one running peer message loop leaves that loop running,
even though the invocation completed (once fired, tunnel drained). -/
theorem stop_claim_counterexample :
    (Stop ⟨false, false, 0, false, false, false, true, 1,
        ⟨[(goodHash, 5, 60)]⟩⟩).peerLoops = 1 ∧
    (Stop ⟨false, false, 0, false, false, false, true, 1,
        ⟨[(goodHash, 5, 60)]⟩⟩).onceUsed = true ∧
    (Stop ⟨false, false, 0, false, false, false, true, 1,
        ⟨[(goodHash, 5, 60)]⟩⟩).tunnel.len = 0 :=
  ⟨rfl, rfl, rfl⟩

/-- C8 amended: Stop is idempotent — invoking it more than once closes
the shutdown channel and releases the handler, the database and the
monitor at most once (no panic or double-close) — and after any completed
invocation the wg-tracked scheduler listen loop has observed the signal
and exited and the Dedup Tunnel has been drained to zero entries; the
per-peer message loops, being neither wg-tracked nor selecting on the
shutdown signal, are left running by Stop and exit only when their
connection read fails or a packet terminates the session. -/
theorem stop_idempotent (s : FsState) :
    (Stop s).tunnel.len = 0 ∧
    (Stop s).peerLoops = s.peerLoops ∧
    (s.onceUsed = false →
      (Stop s).closed = true ∧ (Stop s).listenRunning = false ∧
      (Stop s).closeCount = s.closeCount + 1 ∧
      (Stop s).handlerClosed = true ∧ (Stop s).dbClosed = true ∧
      (Stop s).monitorStopped = true) ∧
    (s.closed = true → (Stop s).listenRunning = false) ∧
    (Stop (Stop s)).closeCount = (Stop s).closeCount ∧
    (s.closeCount = 0 →
      (Stop s).closeCount ≤ 1 ∧ (Stop (Stop s)).closeCount ≤ 1) := by
  cases h : s.onceUsed <;> cases hc : s.closed <;>
    simp [Stop, listenSelectClose, Tunnel.drain, Tunnel.len, h, hc]
  all_goals omega

/-- Witness for C8 at a concrete fresh state holding one tunnel entry, a
running listen loop and two running peer message loops: one Stop drains
the tunnel, stops the listen loop and closes the channel exactly once, a
second Stop closes nothing further, and both peer loops survive. -/
theorem stop_idempotent_witness :
    (Stop ⟨false, false, 0, false, false, false, true, 2,
        ⟨[(goodHash, 5, 60)]⟩⟩).tunnel.len = 0 ∧
    (Stop ⟨false, false, 0, false, false, false, true, 2,
        ⟨[(goodHash, 5, 60)]⟩⟩).listenRunning = false ∧
    (Stop ⟨false, false, 0, false, false, false, true, 2,
        ⟨[(goodHash, 5, 60)]⟩⟩).closeCount = 1 ∧
    (Stop (Stop ⟨false, false, 0, false, false, false, true, 2,
        ⟨[(goodHash, 5, 60)]⟩⟩)).closeCount ≤ 1 ∧
    (Stop ⟨false, false, 0, false, false, false, true, 2,
        ⟨[(goodHash, 5, 60)]⟩⟩).peerLoops = 2 :=
  ⟨(stop_idempotent ⟨false, false, 0, false, false, false, true, 2,
      ⟨[(goodHash, 5, 60)]⟩⟩).1,
   ((stop_idempotent ⟨false, false, 0, false, false, false, true, 2,
      ⟨[(goodHash, 5, 60)]⟩⟩).2.2.1 rfl).2.1,
   ((stop_idempotent ⟨false, false, 0, false, false, false, true, 2,
      ⟨[(goodHash, 5, 60)]⟩⟩).2.2.1 rfl).2.2.1,
   ((stop_idempotent ⟨false, false, 0, false, false, false, true, 2,
      ⟨[(goodHash, 5, 60)]⟩⟩).2.2.2.2.2 rfl).2,
   (stop_idempotent ⟨false, false, 0, false, false, false, true, 2,
      ⟨[(goodHash, 5, 60)]⟩⟩).2.1⟩

end TorrentFS
